import Mathlib

/-!
Shallow embedding of `src/game.js` (the Sunkist tilt game).

Angles, speeds and sensor betas are modelled as rationals; timestamps
(`Date.now()`) as integers (milliseconds); `lives` as an integer so that the
question whether it can go negative is meaningful.  The JavaScript `%`
operator (truncated-division remainder) is modelled by `jsRem`.
-/

namespace Sunkist

/-- JavaScript's `a % b`: remainder of truncated division,
`a - b * trunc (a / b)`. -/
def jsRem (a b : ℚ) : ℚ :=
  if 0 ≤ a / b then a - b * (⌊a / b⌋ : ℚ) else a - b * (⌈a / b⌉ : ℚ)

/-- The mutable fields of a `SunkistGame` instance that the game logic reads
or writes, plus `subscribed`, which records whether this instance's
`handleMotion` is currently registered as a `deviceorientation` listener. -/
structure GameState where
  rotation : ℚ
  speed : ℚ
  lives : ℤ
  points : ℕ
  isGameOver : Bool
  lastTiltTime : ℤ
  recentBetas : List ℚ
  subscribed : Bool
deriving Repr, DecidableEq

/-- `initializeGame()` (lines 48-59): the state of a freshly constructed
game.  The constructor does not register the orientation listener. -/
def initialState : GameState :=
  { rotation := 0
    speed := 4
    lives := 3
    points := 0
    isGameOver := false
    lastTiltTime := 0
    recentBetas := []
    subscribed := false }

/-- Lines 102-103: `recentBetas.push(beta); if (length > 3) shift()`. -/
def pushBeta (w : List ℚ) (b : ℚ) : List ℚ :=
  let w1 := w ++ [b]
  if 3 < w1.length then w1.drop 1 else w1

/-- Lines 105-106: `recentBetas[length-1] - recentBetas[0]` when at least two
samples are present, else `0`. -/
def windowMovement (w : List ℚ) : ℚ :=
  if 2 ≤ w.length then w.getLastD 0 - w.headD 0 else 0

/-- Line 167: `((rotation % 360) + 360) % 360`. -/
def normalizedRotation (r : ℚ) : ℚ :=
  jsRem (jsRem r 360 + 360) 360

/-- Line 169: `normalizedRotation >= 335 || normalizedRotation <= 25`. -/
def isInTargetZone (r : ℚ) : Bool :=
  decide (335 ≤ normalizedRotation r) || decide (normalizedRotation r ≤ 25)

/-- `cleanup()` (lines 82-97): removes the motion listener, cancels the
animation frame, and resets `isGameOver`, `rotation` and `speed`. -/
def cleanup (s : GameState) : GameState :=
  { s with subscribed := false, isGameOver := true, rotation := 0, speed := 4 }

/-- The two end-of-game message branches of `endGame()` (lines 198-208). -/
inductive EndMessage where
  | winner
  | tryAgain
deriving Repr, DecidableEq

/-- `endGame()` (lines 195-226): calls `cleanup()` and selects the message by
`points > 12`. -/
def endGame (s : GameState) : GameState × EndMessage :=
  (cleanup s, if 12 < s.points then EndMessage.winner else EndMessage.tryAgain)

/-- `checkHit()` (lines 166-193): hit increments points and bumps speed by
0.7 on every fifth point; miss decrements lives and ends the game at 0. -/
def checkHit (s : GameState) : GameState :=
  if isInTargetZone s.rotation then
    let p := s.points + 1
    { s with
      points := p
      speed := if p % 5 = 0 then s.speed + 7/10 else s.speed }
  else
    let s1 : GameState := { s with lives := s.lives - 1 }
    if s1.lives ≤ 0 then (endGame s1).1 else s1

/-- The gesture condition of `handleMotion` (line 108), evaluated on the
window as it is after the sample has been appended. -/
def gestureTriggered (s : GameState) (beta : Option ℚ) (now : ℤ) : Bool :=
  match beta with
  | none => false
  | some b =>
      decide (8 < windowMovement (pushBeta s.recentBetas b)) &&
      decide (200 < now - s.lastTiltTime)

/-- `handleMotion(e)` (lines 99-112), with `e.beta` as an `Option ℚ`
(`none` for `null`/`undefined`) and `Date.now()` passed in as `now`.  The
guard of line 100 returns early on `null`/`undefined`; otherwise the sample
is pushed into the window, and if the movement across the updated window
exceeds 8 and more than 200ms passed since `lastTiltTime`, `checkHit()` runs
and the gesture time is stamped. -/
def handleMotion (s : GameState) (beta : Option ℚ) (now : ℤ) : GameState :=
  match beta with
  | none => s
  | some b =>
      if 8 < windowMovement (pushBeta s.recentBetas b) ∧ 200 < now - s.lastTiltTime then
        { checkHit { s with recentBetas := pushBeta s.recentBetas b } with
            lastTiltTime := now }
      else { s with recentBetas := pushBeta s.recentBetas b }

/-- One iteration of `gameLoop()` (lines 228-240): when the game is not over,
advance the rotation by the current speed modulo 360. -/
def gameLoop (s : GameState) : GameState :=
  if s.isGameOver then s
  else { s with rotation := jsRem (s.rotation + s.speed) 360 }

/-- `start()` (lines 120-145): resets score, lives, rotation and speed, and
(re)registers the orientation listener (remove-then-add, hence exactly one
registration for this instance afterwards). -/
def start (s : GameState) : GameState :=
  { s with
    lives := 3
    points := 0
    isGameOver := false
    rotation := 0
    speed := 4
    subscribed := true }

/-- A freshly started session: `start()` right after construction. -/
def startedState : GameState :=
  start initialState

/-- The environment events a live game can receive: an orientation sample
(dispatched to `handleMotion` only while the listener is registered) or one
animation-frame tick of `gameLoop`. -/
inductive Event where
  | orientation (beta : Option ℚ) (now : ℤ)
  | tick

/-- Event dispatch: orientation events reach `handleMotion` only while the
instance is subscribed. -/
def applyEvent (s : GameState) (e : Event) : GameState :=
  match e with
  | Event.orientation beta now =>
      if s.subscribed then handleMotion s beta now else s
  | Event.tick => gameLoop s

/-- One step of the whole system: an environment event, a (re)`start()` of
the current instance, or a restart constructing a fresh instance. -/
inductive Step : GameState → GameState → Prop where
  | event (s : GameState) (e : Event) : Step s (applyEvent s e)
  | doStart (s : GameState) : Step s (start s)
  | doRestart (s : GameState) : Step s initialState

/-- States reachable from a freshly constructed game. -/
def Reachable (s : GameState) : Prop :=
  Relation.ReflTransGen Step initialState s

/-- Feed a list of orientation samples (beta, timestamp) to `handleMotion`. -/
def runMotions (s : GameState) (es : List (Option ℚ × ℤ)) : GameState :=
  es.foldl (fun t p => handleMotion t p.1 p.2) s

/-- Whether any sample in the list fires the gesture condition when the list
is fed to `handleMotion` sample by sample. -/
def anyTrigger (s : GameState) (es : List (Option ℚ × ℤ)) : Bool :=
  match es with
  | [] => false
  | p :: rest =>
      gestureTriggered s p.1 p.2 || anyTrigger (handleMotion s p.1 p.2) rest

/-- Mathematical modulo on ℚ: `a - 360 * ⌊a / 360⌋`. -/
def mathMod360 (a : ℚ) : ℚ :=
  a - 360 * (⌊a / 360⌋ : ℚ)

/-- The rotation reached from 0 after one `gameLoop` tick per entry of
`speeds`, the entry being the speed in effect at that tick. -/
def rotationAfterTicks (speeds : List ℚ) : ℚ :=
  speeds.foldl
    (fun r v => (gameLoop { initialState with rotation := r, speed := v }).rotation) 0

/-- The page-level world: the current game instance (and an identity for it),
a counter supplying identities for future instances, and the list of
instances whose `handleMotion` is registered on `window`. -/
structure World where
  current : GameState
  currentId : ℕ
  nextId : ℕ
  listeners : List ℕ
deriving Repr, DecidableEq

/-- The world right after the `load` handler (lines 254-259): one fresh game,
no orientation listener yet. -/
def loadWorld : World :=
  { current := initialState, currentId := 0, nextId := 1, listeners := [] }

/-- `addEventListener`: registering an already-registered listener is a
no-op. -/
def addListener (l : List ℕ) (i : ℕ) : List ℕ :=
  if i ∈ l then l else l ++ [i]

/-- `restartGame()` (lines 243-251): `cleanup()` the current instance (which
removes its listener) and install a fresh instance. -/
def restartGameW (w : World) : World :=
  { current := initialState
    currentId := w.nextId
    nextId := w.nextId + 1
    listeners := w.listeners.erase w.currentId }

/-- `startGame()` reaching `start()` (lines 139-144): remove-then-add the
current instance's listener and reset the session. -/
def startGameW (w : World) : World :=
  { w with
    current := start w.current
    listeners := addListener ((w.listeners).erase w.currentId) w.currentId }

/-- One full restart cycle: tap Play Again, then tap to start. -/
def restartCycle (w : World) : World :=
  startGameW (restartGameW w)

/-! ## Basic lemmas about the modular arithmetic -/

theorem jsRem_eq_sub (a b : ℚ) (k : ℤ) (hb : 0 < b) (h0 : 0 ≤ a)
    (h1 : b * k ≤ a) (h2 : a < b * (k + 1)) : jsRem a b = a - b * k := by
  have hdiv : 0 ≤ a / b := div_nonneg h0 hb.le
  have hfl : ⌊a / b⌋ = k := by
    rw [Int.floor_eq_iff]
    constructor
    · rw [le_div_iff₀ hb, mul_comm]
      exact h1
    · rw [div_lt_iff₀ hb]
      push_cast
      linarith
  rw [jsRem, if_pos hdiv, hfl]

theorem mathMod360_eq_fract (a : ℚ) : mathMod360 a = 360 * Int.fract (a / 360) := by
  rw [mathMod360, Int.fract]
  field_simp

theorem mathMod360_nonneg (a : ℚ) : 0 ≤ mathMod360 a := by
  rw [mathMod360_eq_fract]
  have := Int.fract_nonneg (a / 360)
  linarith

theorem mathMod360_lt (a : ℚ) : mathMod360 a < 360 := by
  rw [mathMod360_eq_fract]
  have := Int.fract_lt_one (a / 360)
  nlinarith [Int.fract_nonneg (a / 360)]

theorem jsRem_eq_mathMod (a : ℚ) (h : 0 ≤ a) : jsRem a 360 = mathMod360 a := by
  rw [jsRem, mathMod360, if_pos (div_nonneg h (by norm_num))]

theorem mathMod360_mathMod_add (a b : ℚ) :
    mathMod360 (mathMod360 a + b) = mathMod360 (a + b) := by
  rw [mathMod360_eq_fract, mathMod360_eq_fract, mathMod360_eq_fract]
  have h1 : (360 * Int.fract (a / 360) + b) / 360 = (a + b) / 360 - (⌊a / 360⌋ : ℚ) := by
    rw [Int.fract]
    field_simp
    ring
  rw [h1, Int.fract_sub_int]

theorem normalizedRotation_of_lt (r : ℚ) (h0 : 0 ≤ r) (h1 : r < 360) :
    normalizedRotation r = r := by
  have e1 : jsRem r 360 = r := by
    have := jsRem_eq_sub r 360 0 (by norm_num) h0 (by push_cast; linarith)
      (by push_cast; linarith)
    simpa using this
  rw [normalizedRotation, e1]
  have := jsRem_eq_sub (r + 360) 360 1 (by norm_num) (by linarith) (by push_cast; linarith)
    (by push_cast; linarith)
  rw [this]
  ring

/-! ## Shape lemmas for the game operations -/

theorem isInTargetZone_iff (r : ℚ) :
    isInTargetZone r = true ↔
      (335 ≤ normalizedRotation r ∨ normalizedRotation r ≤ 25) := by
  simp [isInTargetZone]

theorem checkHit_hit (s : GameState) (h : isInTargetZone s.rotation = true) :
    checkHit s =
      { s with
        points := s.points + 1
        speed := if (s.points + 1) % 5 = 0 then s.speed + 7/10 else s.speed } := by
  rw [checkHit, if_pos h]

theorem checkHit_miss (s : GameState) (h : isInTargetZone s.rotation = false) :
    checkHit s =
      if s.lives - 1 ≤ 0 then
        { s with
          lives := s.lives - 1
          subscribed := false
          isGameOver := true
          rotation := 0
          speed := 4 }
      else { s with lives := s.lives - 1 } := by
  rw [checkHit, if_neg (by simp [h])]
  rfl

theorem checkHit_recentBetas (s : GameState) :
    (checkHit s).recentBetas = s.recentBetas := by
  rw [checkHit]
  split
  · rfl
  · dsimp only
    split <;> rfl

theorem checkHit_lastTiltTime (s : GameState) :
    (checkHit s).lastTiltTime = s.lastTiltTime := by
  rw [checkHit]
  split
  · rfl
  · dsimp only
    split <;> rfl

theorem handleMotion_none (s : GameState) (now : ℤ) :
    handleMotion s none now = s := rfl

theorem gestureTriggered_some (s : GameState) (b : ℚ) (now : ℤ) :
    gestureTriggered s (some b) now =
      decide (8 < windowMovement (pushBeta s.recentBetas b) ∧
        200 < now - s.lastTiltTime) := by
  rw [gestureTriggered, Bool.decide_and]

theorem handleMotion_some (s : GameState) (b : ℚ) (now : ℤ) :
    handleMotion s (some b) now =
      if 8 < windowMovement (pushBeta s.recentBetas b) ∧ 200 < now - s.lastTiltTime
      then { checkHit { s with recentBetas := pushBeta s.recentBetas b } with
              lastTiltTime := now }
      else { s with recentBetas := pushBeta s.recentBetas b } := rfl

theorem handleMotion_recentBetas (s : GameState) (b : ℚ) (now : ℤ) :
    (handleMotion s (some b) now).recentBetas = pushBeta s.recentBetas b := by
  rw [handleMotion_some]
  split
  · rw [checkHit_recentBetas]
  · rfl

/-! ## Claim theorems -/

/-- C2: `checkHit` classifies the normalized rotation as a hit exactly when
it is ≥ 335° or ≤ 25° (it then increments `points`); rotations of exactly
335° and 25° are hits, rotations of 334° and 26° are misses. -/
theorem claim_C2_target_zone_boundaries :
    (∀ s : GameState, (checkHit s).points = s.points + 1 ↔
      (335 ≤ normalizedRotation s.rotation ∨ normalizedRotation s.rotation ≤ 25))
    ∧ isInTargetZone 335 = true ∧ isInTargetZone 25 = true
    ∧ isInTargetZone 334 = false ∧ isInTargetZone 26 = false := by
  refine ⟨?_, ?_, ?_, ?_, ?_⟩
  · intro s
    rw [← isInTargetZone_iff]
    by_cases h : isInTargetZone s.rotation
    · rw [checkHit_hit s h]
      simpa using h
    · rw [checkHit_miss s (by simpa using h)]
      constructor
      · intro hp
        exfalso
        revert hp
        split <;> simp
      · intro hz
        exact absurd hz (by simpa using h)
  · rw [isInTargetZone, normalizedRotation_of_lt 335 (by norm_num) (by norm_num)]
    norm_num
  · rw [isInTargetZone, normalizedRotation_of_lt 25 (by norm_num) (by norm_num)]
    norm_num
  · rw [isInTargetZone, normalizedRotation_of_lt 334 (by norm_num) (by norm_num)]
    norm_num
  · rw [isInTargetZone, normalizedRotation_of_lt 26 (by norm_num) (by norm_num)]
    norm_num

/-- C7: `endGame` picks the end-of-game message by `points > 12`; at 12
points the lose branch is shown, at 13 points the win branch. -/
theorem claim_C7_end_message_threshold :
    (∀ s : GameState, (endGame s).2 = EndMessage.winner ↔ 12 < s.points)
    ∧ (endGame { startedState with points := 12 }).2 = EndMessage.tryAgain
    ∧ (endGame { startedState with points := 13 }).2 = EndMessage.winner := by
  refine ⟨?_, ?_, ?_⟩
  · intro s
    by_cases h : 12 < s.points <;> simp [endGame, h]
  · simp [endGame]
  · simp [endGame]

/-! ## The sliding window (C6) -/

theorem pushBeta_length_le (w : List ℚ) (b : ℚ) (h : w.length ≤ 3) :
    (pushBeta w b).length ≤ 3 := by
  rw [pushBeta]
  split
  · simp only [List.length_drop, List.length_append, List.length_cons, List.length_nil]
    omega
  · next hc =>
    simp only [not_lt, List.length_append, List.length_cons, List.length_nil] at hc
    simp only [List.length_append, List.length_cons, List.length_nil]
    omega

theorem foldl_pushBeta_suffix (betas : List ℚ) :
    ∀ w : List ℚ, w.length ≤ 3 →
      betas.foldl pushBeta w = (w ++ betas).drop ((w ++ betas).length - 3) := by
  induction betas with
  | nil =>
      intro w h
      simp only [List.foldl_nil, List.append_nil]
      rw [Nat.sub_eq_zero_of_le h, List.drop_zero]
  | cons b rest ih =>
      intro w h
      rw [List.foldl_cons, ih (pushBeta w b) (pushBeta_length_le w b h)]
      by_cases hw : w.length ≤ 2
      · have hp : pushBeta w b = w ++ [b] := by
          rw [pushBeta]
          rw [if_neg (by simp; omega)]
        rw [hp, List.append_assoc]
        simp
      · have hw3 : w.length = 3 := by omega
        obtain ⟨a, t, rfl⟩ : ∃ a t, w = a :: t := by
          cases w with
          | nil => simp at hw3
          | cons a t => exact ⟨a, t, rfl⟩
        have ht : t.length = 2 := by simpa using hw3
        have hp : pushBeta (a :: t) b = t ++ [b] := by
          rw [pushBeta]
          rw [if_pos (by simp [ht])]
          simp
        rw [hp]
        have e1 : (t ++ [b] ++ rest).length - 3 = rest.length := by
          simp [ht]
          omega
        have e2 : ((a :: t) ++ b :: rest).length - 3 = rest.length + 1 := by
          simp [ht]
        rw [e1, e2, List.cons_append, List.drop_succ_cons]
        congr 1
        rw [List.append_assoc]
        rfl

theorem runMotions_recentBetas (es : List (Option ℚ × ℤ)) :
    ∀ s : GameState, (runMotions s es).recentBetas =
      (es.filterMap Prod.fst).foldl pushBeta s.recentBetas := by
  induction es with
  | nil => intro s; rfl
  | cons p rest ih =>
      intro s
      obtain ⟨pb, pt⟩ := p
      have hrun : runMotions s ((pb, pt) :: rest) = runMotions (handleMotion s pb pt) rest := rfl
      rw [hrun, ih]
      cases pb with
      | none => rfl
      | some b =>
          rw [handleMotion_recentBetas]
          rfl

/-- C6: for every sequence of samples fed to `handleMotion`, the sliding
window `recentBetas` never holds more than 3 entries, and it always holds
exactly the most recently accepted samples in arrival order (the suffix of
length at most 3 of the accepted betas, oldest evicted first). -/
theorem claim_C6_sliding_window :
    ∀ es : List (Option ℚ × ℤ),
      (runMotions startedState es).recentBetas =
        (es.filterMap Prod.fst).drop ((es.filterMap Prod.fst).length - 3) ∧
      (runMotions startedState es).recentBetas.length ≤ 3 := by
  intro es
  have h0 : startedState.recentBetas = [] := rfl
  have h := runMotions_recentBetas es startedState
  rw [h0] at h
  rw [foldl_pushBeta_suffix _ [] (by simp)] at h
  simp only [List.nil_append] at h
  refine ⟨h, ?_⟩
  rw [h]
  simp
  omega


/-! ## Gesture detection and debouncing (C1, C10) -/

theorem gestureTriggered_iff (s : GameState) (b : ℚ) (now : ℤ) :
    gestureTriggered s (some b) now = true ↔
      (8 < windowMovement (pushBeta s.recentBetas b) ∧ 200 < now - s.lastTiltTime) := by
  rw [gestureTriggered_some, decide_eq_true_eq]

theorem handleMotion_of_triggered (s : GameState) (b : ℚ) (now : ℤ)
    (h : gestureTriggered s (some b) now = true) :
    handleMotion s (some b) now =
      { checkHit { s with recentBetas := pushBeta s.recentBetas b } with
          lastTiltTime := now } := by
  rw [handleMotion_some, if_pos ((gestureTriggered_iff s b now).mp h)]

theorem handleMotion_of_not_triggered (s : GameState) (b : ℚ) (now : ℤ)
    (h : gestureTriggered s (some b) now = false) :
    handleMotion s (some b) now = { s with recentBetas := pushBeta s.recentBetas b } := by
  rw [handleMotion_some, if_neg]
  intro hc
  rw [(gestureTriggered_iff s b now).mpr hc] at h
  simp at h

theorem lastTiltTime_of_not_triggered (s : GameState) (beta : Option ℚ) (now : ℤ)
    (h : gestureTriggered s beta now = false) :
    (handleMotion s beta now).lastTiltTime = s.lastTiltTime := by
  cases beta with
  | none => rfl
  | some b => rw [handleMotion_of_not_triggered s b now h]

theorem anyTrigger_false_of_recent (es : List (Option ℚ × ℤ)) :
    ∀ (s : GameState) (T : ℤ), T ≤ s.lastTiltTime →
      (∀ p ∈ es, p.2 ≤ T + 200) → anyTrigger s es = false := by
  induction es with
  | nil =>
      intro s T h1 h2
      rfl
  | cons p rest ih =>
      intro s T h1 h2
      have hp : p.2 ≤ T + 200 := h2 p (by simp)
      have hnt : gestureTriggered s p.1 p.2 = false := by
        cases hb : p.1 with
        | none => rfl
        | some b =>
            rw [gestureTriggered_some, decide_eq_false_iff_not]
            rintro ⟨-, hc⟩
            omega
      rw [anyTrigger, hnt, Bool.false_or]
      have hlast := lastTiltTime_of_not_triggered s p.1 p.2 hnt
      exact ih (handleMotion s p.1 p.2) T (by omega)
        (fun q hq => h2 q (List.mem_cons_of_mem p hq))

/-- C1: `handleMotion` runs `checkHit` only when the window movement (newest
minus oldest sample) exceeds 8 degrees and at least 200ms have passed since
the last accepted gesture; after an accepted gesture at time `t`, no sample
delivered up to `t + 200` (in particular one 150ms later) triggers again, so
two qualifying gestures 150ms apart never both register. -/
theorem claim_C1_gesture_debounce :
    ∀ (s : GameState) (b : ℚ) (t : ℤ) (es : List (Option ℚ × ℤ)),
      gestureTriggered s (some b) t = true →
      (∀ p ∈ es, p.2 ≤ t + 200) →
      (8 < windowMovement (pushBeta s.recentBetas b) ∧ 200 ≤ t - s.lastTiltTime) ∧
      anyTrigger (handleMotion s (some b) t) es = false := by
  intro s b t es h hes
  obtain ⟨hm, ht⟩ := (gestureTriggered_iff s b t).mp h
  refine ⟨⟨hm, by omega⟩, ?_⟩
  have hl : (handleMotion s (some b) t).lastTiltTime = t := by
    rw [handleMotion_of_triggered s b t h]
  exact anyTrigger_false_of_recent es (handleMotion s (some b) t) t (by omega) hes

/-- Witness for C1: a gesture accepted at time 300 (movement 20 over the
window), followed by a sample 150ms later which does not trigger. -/
theorem claim_C1_gesture_debounce_witness :
    (8 < windowMovement
        (pushBeta ({ startedState with recentBetas := [0, 0] } : GameState).recentBetas 20) ∧
      200 ≤ (300 : ℤ) - ({ startedState with recentBetas := [0, 0] } : GameState).lastTiltTime) ∧
    anyTrigger (handleMotion { startedState with recentBetas := [0, 0] } (some 20) 300)
      [(some 100, 450)] = false :=
  claim_C1_gesture_debounce { startedState with recentBetas := [0, 0] } 20 300
    [(some 100, 450)]
    (by rw [gestureTriggered_some, decide_eq_true_eq]
        constructor
        · norm_num [pushBeta, windowMovement, List.getLastD]
        · norm_num [startedState, start, initialState])
    (by intro p hp
        simp only [List.mem_singleton] at hp
        subst hp
        norm_num)

/-- C10: the gesture detector is direction-sensitive: `checkHit` is invoked
only when newest-minus-oldest movement is strictly greater than 8; whenever
the movement is at most 8 (in particular any negative movement), the sample
only updates the window and nothing else happens. -/
theorem claim_C10_direction_sensitive :
    ∀ (s : GameState) (b : ℚ) (now : ℤ),
      (gestureTriggered s (some b) now = true →
        8 < windowMovement (pushBeta s.recentBetas b)) ∧
      (windowMovement (pushBeta s.recentBetas b) ≤ 8 →
        handleMotion s (some b) now =
          { s with recentBetas := pushBeta s.recentBetas b }) := by
  intro s b now
  constructor
  · intro h
    exact ((gestureTriggered_iff s b now).mp h).1
  · intro h
    rw [handleMotion_some, if_neg]
    rintro ⟨hc, -⟩
    exact absurd hc (not_lt.mpr h)

/-- Witness for C10: movement 20 does exceed 8 when triggered; a sample with
movement 0 leaves everything except the window unchanged. -/
theorem claim_C10_direction_sensitive_witness :
    8 < windowMovement
        (pushBeta ({ startedState with recentBetas := [0, 0] } : GameState).recentBetas 20) ∧
    handleMotion startedState (some 0) 300 =
      { startedState with recentBetas := pushBeta startedState.recentBetas 0 } :=
  ⟨(claim_C10_direction_sensitive { startedState with recentBetas := [0, 0] } 20 300).1
      (by rw [gestureTriggered_some, decide_eq_true_eq]
          constructor
          · norm_num [pushBeta, windowMovement, List.getLastD]
          · norm_num [startedState, start, initialState]),
    (claim_C10_direction_sensitive startedState 0 300).2
      (by norm_num [pushBeta, windowMovement, startedState, start, initialState])⟩

/-- C9: `handleMotion` ignores a `null`/`undefined` beta, changing no state
at all, while a beta of exactly 0 is accepted and appended to the window. -/
theorem claim_C9_null_beta_ignored :
    ∀ (s : GameState) (now : ℤ),
      handleMotion s none now = s ∧
      (handleMotion s (some 0) now).recentBetas = pushBeta s.recentBetas 0 := by
  intro s now
  exact ⟨handleMotion_none s now, handleMotion_recentBetas s 0 now⟩

/-! ## Lives, game over, and speed (C3, C4) -/

/-- The state invariant of a game instance. -/
def Inv (s : GameState) : Prop :=
  0 ≤ s.lives ∧ (s.lives ≤ 0 → s.isGameOver = true) ∧
  (s.subscribed = true → s.isGameOver = false) ∧
  0 ≤ s.rotation ∧ s.rotation < 360 ∧ 4 ≤ s.speed

theorem inv_initialState : Inv initialState := by
  refine ⟨by norm_num [initialState], by norm_num [initialState], ?_, ?_, ?_, ?_⟩ <;>
    norm_num [initialState]

theorem inv_start (s : GameState) : Inv (start s) := by
  refine ⟨?_, ?_, ?_, ?_, ?_, ?_⟩ <;> norm_num [start]

theorem inv_gameLoop (s : GameState) (h : Inv s) : Inv (gameLoop s) := by
  obtain ⟨h1, h2, h3, h4, h5, h6⟩ := h
  rw [gameLoop]
  split
  · exact ⟨h1, h2, h3, h4, h5, h6⟩
  · refine ⟨h1, h2, h3, ?_, ?_, h6⟩
    · dsimp only
      rw [jsRem_eq_mathMod _ (by linarith)]
      exact mathMod360_nonneg _
    · dsimp only
      rw [jsRem_eq_mathMod _ (by linarith)]
      exact mathMod360_lt _

theorem inv_checkHit_upd (s : GameState) (t : ℤ) (h : Inv s)
    (hsub : s.subscribed = true) : Inv { checkHit s with lastTiltTime := t } := by
  obtain ⟨h1, h2, h3, h4, h5, h6⟩ := h
  have hover : s.isGameOver = false := h3 hsub
  have hlive : 1 ≤ s.lives := by
    by_contra hc
    have hc0 : s.lives ≤ 0 := by omega
    rw [h2 hc0] at hover
    exact Bool.noConfusion hover
  by_cases hz : isInTargetZone s.rotation
  · rw [checkHit_hit s hz]
    refine ⟨h1, fun hl => h2 hl, fun _ => hover, h4, h5, ?_⟩
    dsimp only
    split
    · linarith
    · exact h6
  · rw [checkHit_miss s (by simpa using hz)]
    by_cases hend : s.lives - 1 ≤ 0
    · rw [if_pos hend]
      refine ⟨?_, fun _ => rfl, ?_, ?_, ?_, ?_⟩ <;> dsimp only <;> first | omega | norm_num
    · rw [if_neg hend]
      refine ⟨?_, ?_, fun _ => hover, h4, h5, h6⟩ <;> dsimp only <;> omega

theorem inv_handleMotion (s : GameState) (beta : Option ℚ) (now : ℤ)
    (h : Inv s) (hsub : s.subscribed = true) : Inv (handleMotion s beta now) := by
  cases beta with
  | none => exact h
  | some b =>
      cases htr : gestureTriggered s (some b) now with
      | false =>
          rw [handleMotion_of_not_triggered s b now htr]
          exact h
      | true =>
          rw [handleMotion_of_triggered s b now htr]
          exact inv_checkHit_upd { s with recentBetas := pushBeta s.recentBetas b } now h hsub

theorem inv_step (s s' : GameState) (h : Inv s) (hst : Step s s') : Inv s' := by
  cases hst with
  | doStart => exact inv_start s
  | doRestart => exact inv_initialState
  | event e =>
      cases e with
      | tick => exact inv_gameLoop s h
      | orientation beta now =>
          rw [applyEvent]
          split
          · next hsub => exact inv_handleMotion s beta now h hsub
          · exact h

theorem inv_reachable (s : GameState) (h : Reachable s) : Inv s := by
  induction h with
  | refl => exact inv_initialState
  | tail hab hbc ih => exact inv_step _ _ ih hbc

theorem three_misses (s : GameState) (h : isInTargetZone s.rotation = false)
    (hl : s.lives = 3) :
    (checkHit (checkHit (checkHit s))).isGameOver = true ∧
    (checkHit (checkHit (checkHit s))).lives = 0 := by
  have e1 : checkHit s = { s with lives := s.lives - 1 } := by
    rw [checkHit_miss s h, if_neg (by omega)]
  have e2 : checkHit { s with lives := s.lives - 1 } = { s with lives := s.lives - 2 } := by
    rw [checkHit_miss { s with lives := s.lives - 1 } h, if_neg (by dsimp only; omega)]
    dsimp only
    congr 1
    omega
  have e3 : checkHit { s with lives := s.lives - 2 } =
      { s with
        lives := s.lives - 3
        subscribed := false
        isGameOver := true
        rotation := 0
        speed := 4 } := by
    rw [checkHit_miss { s with lives := s.lives - 2 } h, if_pos (by dsimp only; omega)]
    dsimp only
    congr 1
    omega
  rw [e1, e2, e3]
  exact ⟨rfl, by dsimp only; omega⟩

/-- C3: from a freshly started session (lives=3, points=0, speed=4), three
consecutive hit evaluations with the rotation outside the target zone end
the game with `isGameOver = true` and `lives = 0`; moreover in every
reachable state lives is never negative and lives hitting 0 forces the
game-over state. -/
theorem claim_C3_three_misses_end_game :
    (∀ r : ℚ, isInTargetZone r = false →
      (checkHit (checkHit (checkHit { startedState with rotation := r }))).isGameOver = true ∧
      (checkHit (checkHit (checkHit { startedState with rotation := r }))).lives = 0) ∧
    (∀ s : GameState, Reachable s →
      0 ≤ s.lives ∧ (s.lives = 0 → s.isGameOver = true)) := by
  constructor
  · intro r hr
    exact three_misses { startedState with rotation := r } hr rfl
  · intro s hs
    obtain ⟨h1, h2, -⟩ := inv_reachable s hs
    exact ⟨h1, fun h0 => h2 (by omega)⟩

/-- Witness for C3 at rotation 180 (a miss) and at the initial state. -/
theorem claim_C3_three_misses_end_game_witness :
    ((checkHit (checkHit (checkHit { startedState with rotation := 180 }))).isGameOver = true ∧
      (checkHit (checkHit (checkHit { startedState with rotation := 180 }))).lives = 0) ∧
    (0 ≤ initialState.lives ∧ (initialState.lives = 0 → initialState.isGameOver = true)) :=
  ⟨claim_C3_three_misses_end_game.1 180
      (by rw [isInTargetZone, normalizedRotation_of_lt 180 (by norm_num) (by norm_num)]
          norm_num),
    claim_C3_three_misses_end_game.2 initialState Relation.ReflTransGen.refl⟩

/-- A step of a running game: an environment event (orientation sample or
animation tick) delivered to the current instance. -/
def RunStep (s s' : GameState) : Prop :=
  (∃ beta now, s' = applyEvent s (Event.orientation beta now)) ∨
  s' = applyEvent s Event.tick

theorem speed_conj_of_unchanged (s s' : GameState) (hsp : s'.speed = s.speed)
    (hpt : s'.points = s.points) :
    s.speed ≤ s'.speed ∧
    (s'.speed = s.speed + 7/10 ↔ (s'.points = s.points + 1 ∧ s'.points % 5 = 0)) ∧
    (s'.speed = s.speed ∨ s'.speed = s.speed + 7/10) := by
  refine ⟨le_of_eq hsp.symm, ?_, Or.inl hsp⟩
  constructor
  · intro hc
    rw [hsp] at hc
    exfalso
    linarith
  · rintro ⟨hc, -⟩
    exfalso
    omega

theorem checkHit_speed_points (s : GameState) (h : (checkHit s).isGameOver = false) :
    s.speed ≤ (checkHit s).speed ∧
    ((checkHit s).speed = s.speed + 7/10 ↔
      ((checkHit s).points = s.points + 1 ∧ (checkHit s).points % 5 = 0)) ∧
    ((checkHit s).speed = s.speed ∨ (checkHit s).speed = s.speed + 7/10) := by
  by_cases hz : isInTargetZone s.rotation
  · rw [checkHit_hit s hz]
    dsimp only
    by_cases h5 : (s.points + 1) % 5 = 0
    · rw [if_pos h5]
      refine ⟨by linarith, ?_, Or.inr rfl⟩
      simp [h5]
    · rw [if_neg h5]
      refine ⟨le_refl _, ?_, Or.inl rfl⟩
      constructor
      · intro hc
        exfalso
        linarith
      · rintro ⟨-, hc⟩
        exact absurd hc h5
  · rw [checkHit_miss s (by simpa using hz)] at h ⊢
    by_cases hend : s.lives - 1 ≤ 0
    · rw [if_pos hend] at h
      exact absurd h (by simp)
    · rw [if_neg hend] at h ⊢
      exact speed_conj_of_unchanged s _ rfl rfl

/-- C4: across any single in-run step (an orientation sample or a tick that
leaves the game running), speed never decreases; it grows by exactly 0.7
exactly when a hit makes points cross a multiple of 5, and no other
operation changes it. -/
theorem claim_C4_speed_monotone :
    ∀ s s' : GameState, RunStep s s' → s'.isGameOver = false →
      s.speed ≤ s'.speed ∧
      (s'.speed = s.speed + 7/10 ↔ (s'.points = s.points + 1 ∧ s'.points % 5 = 0)) ∧
      (s'.speed = s.speed ∨ s'.speed = s.speed + 7/10) := by
  intro s s' hstep hover
  rcases hstep with ⟨beta, now, rfl⟩ | rfl
  · by_cases hsub : s.subscribed = true
    · rw [applyEvent, if_pos hsub] at hover ⊢
      cases beta with
      | none => exact speed_conj_of_unchanged s _ rfl rfl
      | some b =>
          cases htr : gestureTriggered s (some b) now with
          | false =>
              rw [handleMotion_of_not_triggered s b now htr]
              exact speed_conj_of_unchanged s _ rfl rfl
          | true =>
              rw [handleMotion_of_triggered s b now htr] at hover ⊢
              dsimp only at hover ⊢
              exact checkHit_speed_points { s with recentBetas := pushBeta s.recentBetas b } hover
    · rw [applyEvent, if_neg hsub]
      exact speed_conj_of_unchanged s s rfl rfl
  · have e : applyEvent s Event.tick = gameLoop s := rfl
    rw [e]
    rw [gameLoop]
    split
    · exact speed_conj_of_unchanged s s rfl rfl
    · exact speed_conj_of_unchanged s _ rfl rfl

/-- Witness for C4: a tick of the freshly started session. -/
theorem claim_C4_speed_monotone_witness :
    startedState.speed ≤ (applyEvent startedState Event.tick).speed ∧
    ((applyEvent startedState Event.tick).speed = startedState.speed + 7/10 ↔
      ((applyEvent startedState Event.tick).points = startedState.points + 1 ∧
        (applyEvent startedState Event.tick).points % 5 = 0)) ∧
    ((applyEvent startedState Event.tick).speed = startedState.speed ∨
      (applyEvent startedState Event.tick).speed = startedState.speed + 7/10) :=
  claim_C4_speed_monotone startedState (applyEvent startedState Event.tick) (Or.inr rfl) rfl

/-! ## Rotation arithmetic and the restart cycle (C5, C8) -/

theorem gameLoop_tick_rotation (r v : ℚ) :
    (gameLoop { initialState with rotation := r, speed := v }).rotation =
      jsRem (r + v) 360 := by
  rw [gameLoop, if_neg (by simp [initialState])]

theorem rotationAfterTicks_go (speeds : List ℚ) :
    ∀ a : ℚ, 0 ≤ a → (∀ v ∈ speeds, 0 ≤ v) →
      speeds.foldl
        (fun r v => (gameLoop { initialState with rotation := r, speed := v }).rotation)
        (mathMod360 a) = mathMod360 (a + speeds.sum) := by
  induction speeds with
  | nil =>
      intro a ha hv
      simp
  | cons v rest ih =>
      intro a ha hv
      have hv0 : 0 ≤ v := hv v (by simp)
      rw [List.foldl_cons, gameLoop_tick_rotation]
      have hstep : jsRem (mathMod360 a + v) 360 = mathMod360 (a + v) := by
        rw [jsRem_eq_mathMod _ (by have := mathMod360_nonneg a; linarith),
          mathMod360_mathMod_add]
      rw [hstep, ih (a + v) (by linarith) (fun x hx => hv x (by simp [hx]))]
      rw [List.sum_cons]
      ring_nf

theorem mathMod360_zero : mathMod360 0 = 0 := by
  rw [mathMod360]
  norm_num

/-- C5: starting from rotation 0, after N ticks the rotation equals the sum
of the per-tick speeds modulo 360 (for any nonnegative per-tick speeds, as
in every run), and it lies in [0, 360); in every reachable state the
rotation lies in [0, 360). -/
theorem claim_C5_rotation_sum :
    (∀ speeds : List ℚ, (∀ v ∈ speeds, 0 ≤ v) →
      rotationAfterTicks speeds = mathMod360 speeds.sum ∧
      0 ≤ rotationAfterTicks speeds ∧ rotationAfterTicks speeds < 360) ∧
    (∀ s : GameState, Reachable s → 0 ≤ s.rotation ∧ s.rotation < 360) := by
  constructor
  · intro speeds hv
    have h0 := rotationAfterTicks_go speeds 0 le_rfl hv
    rw [mathMod360_zero, zero_add] at h0
    have h : rotationAfterTicks speeds = mathMod360 speeds.sum := by
      rw [rotationAfterTicks]
      exact h0
    refine ⟨h, ?_, ?_⟩
    · rw [h]
      exact mathMod360_nonneg _
    · rw [h]
      exact mathMod360_lt _
  · intro s hs
    obtain ⟨-, -, -, h4, h5, -⟩ := inv_reachable s hs
    exact ⟨h4, h5⟩

/-- Witness for C5: two ticks at the base speed 4, and the initial state. -/
theorem claim_C5_rotation_sum_witness :
    (rotationAfterTicks [4, 4] = mathMod360 (List.sum [4, 4]) ∧
      0 ≤ rotationAfterTicks [4, 4] ∧ rotationAfterTicks [4, 4] < 360) ∧
    (0 ≤ initialState.rotation ∧ initialState.rotation < 360) :=
  ⟨claim_C5_rotation_sum.1 [4, 4] (by intro v hv; simp at hv; rw [hv]; norm_num),
    claim_C5_rotation_sum.2 initialState Relation.ReflTransGen.refl⟩


theorem restartCycle_props (w : World)
    (h : w.listeners = [] ∨ w.listeners = [w.currentId]) :
    (restartCycle w).current = start initialState ∧
    (restartCycle w).listeners = [(restartCycle w).currentId] ∧
    ((restartCycle w).listeners = [] ∨
      (restartCycle w).listeners = [(restartCycle w).currentId]) := by
  have he : w.listeners.erase w.currentId = [] := by
    rcases h with h | h <;> simp [h]
  have e1 : restartCycle w =
      { current := start initialState
        currentId := w.nextId
        nextId := w.nextId + 1
        listeners := [w.nextId] } := by
    rw [restartCycle, restartGameW, startGameW]
    dsimp only
    rw [he]
    simp [addListener, List.erase_nil]
  rw [e1]
  exact ⟨rfl, rfl, Or.inr rfl⟩

/-- C8: after a restart cycle (Play Again, then the one-shot start tap) and
after any number of repeated cycles, the new session has lives 3, points 0,
rotation 0 and speed 4, and exactly one orientation listener is registered
on the window (the current instance's; no duplicates accumulate). -/
theorem claim_C8_restart_resets :
    ∀ w : World, (w.listeners = [] ∨ w.listeners = [w.currentId]) →
      ∀ n : ℕ,
        (restartCycle^[n + 1] w).current.lives = 3 ∧
        (restartCycle^[n + 1] w).current.points = 0 ∧
        (restartCycle^[n + 1] w).current.rotation = 0 ∧
        (restartCycle^[n + 1] w).current.speed = 4 ∧
        (restartCycle^[n + 1] w).listeners = [(restartCycle^[n + 1] w).currentId] := by
  intro w h n
  revert w h
  induction n with
  | zero =>
      intro w h
      obtain ⟨hc, hl, -⟩ := restartCycle_props w h
      rw [Function.iterate_one]
      rw [hc] at *
      exact ⟨rfl, rfl, rfl, rfl, hl⟩
  | succ n ih =>
      intro w h
      rw [Function.iterate_succ_apply]
      exact ih (restartCycle w) (restartCycle_props w h).2.2

/-- Witness for C8: one restart cycle from the freshly loaded page. -/
theorem claim_C8_restart_resets_witness :
    (restartCycle^[1] loadWorld).current.lives = 3 ∧
    (restartCycle^[1] loadWorld).current.points = 0 ∧
    (restartCycle^[1] loadWorld).current.rotation = 0 ∧
    (restartCycle^[1] loadWorld).current.speed = 4 ∧
    (restartCycle^[1] loadWorld).listeners = [(restartCycle^[1] loadWorld).currentId] :=
  claim_C8_restart_resets loadWorld (Or.inl rfl) 0

end Sunkist
